import Mathlib

/-!
Verification development for the Clash Royale data pipeline
(`src/build_dataset.py`).  The Python functions are shallowly embedded:
JSON battle objects become Lean structures with `Option` fields for keys
that may be missing, the exception-based control flow of `parse_battle`
becomes an `Option`-valued computation, and the crawl/expansion driver is
modelled as a pure function that also returns the ordered trace of
file-write events it would perform.
-/

namespace ClashPipeline

/-- One entry of a `cards` array; `name` is `none` when the JSON object
has no `"name"` key (accessing it raises in the Python source). -/
structure Card where
  name : Option String
deriving DecidableEq

/-- One entry of the `team` / `opponent` arrays of a raw battle object.
`Option` marks keys that may be absent.  The `clan` field models the
Python value `participant.get("clan")`: `none` for a missing key (or JSON
null), `some d` for a JSON object with entries `d`; an empty JSON object
is `some []`, which is falsy in Python. -/
structure Participant where
  tag : Option String
  cards : Option (List Card)
  startingTrophies : Option Int
  crowns : Option Int
  clan : Option (List (String × String))
deriving DecidableEq

/-- A raw battle JSON object: its `team` and `opponent` arrays.
A missing array is modelled by the empty list (indexing `[0]` raises
either way in the source, and both yield `none` here). -/
structure Battle where
  team : List Participant
  opponent : List Participant
deriving DecidableEq

/-- One row of the output table, as built by `parse_battle`
(`build_dataset.py` lines 140-152). -/
structure BattleRecord where
  player_tag : String
  player_deck : List String
  player_trophies : Option Int
  player_crowns : Int
  opponent_tag : String
  opponent_clan : Option String
  opponent_crowns : Int
  opponent_trophies : Option Int
  opponent_deck : List String
  result : Nat
deriving DecidableEq

/-- Models Python `s.replace("#", "")`: every occurrence of the single
character `#` is removed. -/
def stripHash (s : String) : String :=
  String.mk (s.data.filter (fun c => c != '#'))

/-- The `opponent_clan` expression of `parse_battle` (lines 146-147):
`opponent.get("clan", \x7b\x7d).get("tag", None).replace("#", "") if
opponent.get("clan") else None`.  Outer `none` models the raised
`AttributeError` (when a truthy clan object has no `"tag"` key,
`None.replace` raises, failing the whole parse); `some v` is the computed
field value. -/
def computeOpponentClan (clan : Option (List (String × String))) :
    Option (Option String) :=
  match clan with
  | none => some none
  | some d =>
    if d.isEmpty then some none
    else
      match List.lookup "tag" d with
      | none => none
      | some v => some (some (stripHash v))

/-- Embedding of `parse_battle` (lines 115-155): any missing required
field makes the whole computation `none` (the Python `except` branch
returns `None`); otherwise the flat record is produced. -/
def parse_battle (battle : Battle) : Option BattleRecord := do
  let player ← battle.team.head?
  let opponent ← battle.opponent.head?
  let ocards ← opponent.cards
  let opponent_deck ← ocards.mapM Card.name
  let pcards ← player.cards
  let deck ← pcards.mapM Card.name
  let crowns ← player.crowns
  let opponent_crowns ← opponent.crowns
  let ptag ← player.tag
  let otag ← opponent.tag
  let oclan ← computeOpponentClan opponent.clan
  pure
    { player_tag := ptag
      player_deck := deck
      player_trophies := player.startingTrophies
      player_crowns := crowns
      opponent_tag := otag
      opponent_clan := oclan
      opponent_crowns := opponent_crowns
      opponent_trophies := opponent.startingTrophies
      opponent_deck := opponent_deck
      result := if opponent_crowns < crowns then 1 else 0 }

/-- The row-flipping step of `build_dataset_for_clan` (lines 250-261). -/
def mirror (row : BattleRecord) : BattleRecord :=
  { player_tag := row.opponent_tag
    player_deck := row.opponent_deck
    player_trophies := row.opponent_trophies
    player_crowns := row.opponent_crowns
    opponent_tag := row.player_tag
    opponent_clan := none
    opponent_crowns := row.player_crowns
    opponent_trophies := row.player_trophies
    opponent_deck := row.player_deck
    result := if row.result = 1 then 0 else 1 }

/-- Lines 248-265 of `build_dataset_for_clan`: the collected rows
followed by the flipped copy of each row. -/
def mirror_rows (df : List BattleRecord) : List BattleRecord :=
  df ++ df.map mirror

/-- `build_dataset_for_clan` (lines 221-267) abstracted over the network:
`battlesPerPlayer` is the list of parsed-battle lists returned by
`get_battles_for_player` for each member tag; the rows are concatenated
and then mirrored. -/
def build_dataset_for_clan (battlesPerPlayer : List (List BattleRecord)) :
    List BattleRecord :=
  mirror_rows battlesPerPlayer.flatten

/-- One entry of the `items` array of the clan-members endpoint. -/
structure Member where
  tag : Option String
deriving DecidableEq

/-- The response-processing part of `get_clan_members` (lines 177-183):
`items` is `none` when the response body has no `"items"` key; a member
without `"tag"` raises, so the whole call returns `[]`; otherwise each
tag has its first character sliced off (`member["tag"][1:]`). -/
def get_clan_members (items : Option (List Member)) : List String :=
  match items.bind (fun ms => ms.mapM Member.tag) with
  | none => []
  | some tags => tags.map (fun t => t.drop 1)

/-- Outcome of one `requests.get` call inside `safe_request`: an HTTP
status code, or a raised `RequestException`. -/
inductive Attempt where
  | status (code : Nat)
  | transportError
deriving DecidableEq

/-- Embedding of `safe_request` (lines 98-112).  `responses i` is the
outcome of the i-th GET call; the second argument is the attempt index,
the third the remaining loop iterations (initially `MAX_RETRIES`).
Returns `(r, n, s)`: `r` is the index of the returned 200 response
(`none` models returning `None`), `n` the number of GET calls made and
`s` the ordered list of sleep durations performed. -/
def safe_request (responses : Nat → Attempt) :
    Nat → Nat → Option Nat × Nat × List Nat
  | _, 0 => (none, 0, [])
  | i, fuel + 1 =>
    match responses i with
    | Attempt.status code =>
      if code = 200 then (some i, 1, [])
      else if code = 429 then
        ((safe_request responses (i + 1) fuel).1,
         (safe_request responses (i + 1) fuel).2.1 + 1,
         10 :: (safe_request responses (i + 1) fuel).2.2)
      else (none, 1, [])
    | Attempt.transportError =>
      ((safe_request responses (i + 1) fuel).1,
       (safe_request responses (i + 1) fuel).2.1 + 1,
       5 :: (safe_request responses (i + 1) fuel).2.2)

/-- A file write performed during a run: `writeVisited` models
`save_visited_clans` (the checkpoint overwrite; on disk it is the sorted
JSON encoding of the set, abstracted here as the set's member list), and
`writeParquet` models `save_parquet` on the dataset file. -/
inductive Event where
  | writeVisited (tags : List String)
  | writeParquet (rows : List BattleRecord)
deriving DecidableEq

/-- Pandas `Series.unique`: the distinct values in order of first
appearance, realised with an accumulator of already-seen values. -/
def uniqueFirstAux : List String → List String → List String
  | [], _ => []
  | x :: xs, seen =>
    if seen.contains x then uniqueFirstAux xs seen
    else x :: uniqueFirstAux xs (x :: seen)

/-- `df["opponent_clan"].dropna().unique()` applied to an already
dropna-ed column. -/
def uniqueFirst (l : List String) : List String :=
  uniqueFirstAux l []

/-- Lines 291-292 of `discover_and_expand`: the dropna/unique pass over
the `opponent_clan` column, the not-yet-visited filter, and the
`[:max_new_clans]` slice. -/
def select_new_clans (df : List BattleRecord) (visited : List String)
    (max_new_clans : Nat) : List String :=
  ((uniqueFirst (df.filterMap BattleRecord.opponent_clan)).filter
      (fun c => !(visited.contains c))).take max_new_clans

/-- The per-clan loop of `discover_and_expand` (lines 295-305): for each
selected clan the crawler (`crawl`, abstracting `build_dataset_for_clan`)
runs; a non-empty result is appended to the dataset, the clan is added to
the visited set and the checkpoint is saved immediately.  Returns the
final dataset, the final visited set and the ordered write trace. -/
def expandLoop (crawl : String → List BattleRecord) :
    List String → List BattleRecord → List String →
    List BattleRecord × List String × List Event
  | [], df, visited => (df, visited, [])
  | c :: rest, df, visited =>
    if (crawl c).isEmpty then expandLoop crawl rest df visited
    else
      ((expandLoop crawl rest (df ++ crawl c) (visited.insert c)).1,
       (expandLoop crawl rest (df ++ crawl c) (visited.insert c)).2.1,
       Event.writeVisited (visited.insert c) ::
         (expandLoop crawl rest (df ++ crawl c) (visited.insert c)).2.2)

/-- `discover_and_expand` (lines 270-307), abstracted over the network
through `crawl`. -/
def discover_and_expand (crawl : String → List BattleRecord)
    (df : List BattleRecord) (max_new_clans : Nat) (visited : List String) :
    List BattleRecord × List String × List Event :=
  expandLoop crawl (select_new_clans df visited max_new_clans) df visited

/-- `build_complete_dataset` (lines 310-342): load the prior dataset if
present (else crawl the starting clan), load the checkpoint, expand, and
finally save the dataset and the visited checkpoint.  Returns the final
dataset, final visited set, and the full ordered write trace of the run. -/
def build_complete_dataset (crawl : String → List BattleRecord)
    (existing : Option (List BattleRecord)) (clan_tag : String)
    (max_new_clans : Nat) (visitedCkpt : List String) :
    List BattleRecord × List String × List Event :=
  match existing with
  | some d =>
    ((discover_and_expand crawl d max_new_clans visitedCkpt).1,
     (discover_and_expand crawl d max_new_clans visitedCkpt).2.1,
     (discover_and_expand crawl d max_new_clans visitedCkpt).2.2 ++
       [Event.writeParquet (discover_and_expand crawl d max_new_clans visitedCkpt).1,
        Event.writeVisited (discover_and_expand crawl d max_new_clans visitedCkpt).2.1])
  | none =>
    ((discover_and_expand crawl (crawl clan_tag) max_new_clans visitedCkpt).1,
     (discover_and_expand crawl (crawl clan_tag) max_new_clans visitedCkpt).2.1,
     (discover_and_expand crawl (crawl clan_tag) max_new_clans visitedCkpt).2.2 ++
       [Event.writeParquet
          (discover_and_expand crawl (crawl clan_tag) max_new_clans visitedCkpt).1,
        Event.writeVisited
          (discover_and_expand crawl (crawl clan_tag) max_new_clans visitedCkpt).2.1])

/-- The selection rule of claim C10, written as the spec words it: among
the distinct non-absent `opponent_clan` values in order of first
occurrence, keep those not yet visited and take the first `quota`.
`spec_distinct` is the declarative first-occurrence dedup. -/
def spec_distinct : List String → List String
  | [] => []
  | x :: xs => x :: spec_distinct (xs.filter (fun y => y != x))
termination_by l => l.length
decreasing_by
  simp only [List.length_cons]
  exact Nat.lt_succ_of_le (List.length_filter_le _ _)

/-- The claim-C10 description of the clan selection, assembled from
`spec_distinct`. -/
def spec_select (df : List BattleRecord) (visited : List String)
    (quota : Nat) : List String :=
  ((spec_distinct (df.filterMap BattleRecord.opponent_clan)).filter
      (fun c => !(visited.contains c))).take quota

/-- Inversion of a successful parse: every required field of the raw
battle was present, and the record is exactly the one assembled on lines
140-152 of the source. -/
theorem parse_battle_some_inv {b : Battle} {r : BattleRecord}
    (h : parse_battle b = some r) :
    ∃ player opponent ocards odeck pcards deck crowns ocrowns ptag otag oclan,
      b.team.head? = some player ∧
      b.opponent.head? = some opponent ∧
      opponent.cards = some ocards ∧
      ocards.mapM Card.name = some odeck ∧
      player.cards = some pcards ∧
      pcards.mapM Card.name = some deck ∧
      player.crowns = some crowns ∧
      opponent.crowns = some ocrowns ∧
      player.tag = some ptag ∧
      opponent.tag = some otag ∧
      computeOpponentClan opponent.clan = some oclan ∧
      r = { player_tag := ptag
            player_deck := deck
            player_trophies := player.startingTrophies
            player_crowns := crowns
            opponent_tag := otag
            opponent_clan := oclan
            opponent_crowns := ocrowns
            opponent_trophies := opponent.startingTrophies
            opponent_deck := odeck
            result := if ocrowns < crowns then 1 else 0 } := by
  simp only [parse_battle, Option.bind_eq_bind', Option.bind_eq_some,
    Option.pure_def, Option.some.injEq] at h
  obtain ⟨player, hp, opponent, ho, ocards, hoc, odeck, hod, pcards, hpc,
    deck, hd, crowns, hc, ocrowns, hocr, ptag, hpt, otag, hot, oclan, hocl, hr⟩ := h
  exact ⟨player, opponent, ocards, odeck, pcards, deck, crowns, ocrowns,
    ptag, otag, oclan, hp, ho, hoc, hod, hpc, hd, hc, hocr, hpt, hot, hocl, hr.symm⟩

/-- A team entry as the API serves it: the tag still carries the leading
marker character. -/
def tiePlayer : Participant :=
  { tag := some "#PLR", cards := some [Card.mk (some "Knight")],
    startingTrophies := some 5000, crowns := some 1, clan := none }

/-- An opponent entry with the same crown count as `tiePlayer` and no
clan object. -/
def tieOpponent : Participant :=
  { tag := some "#OPP", cards := some [Card.mk (some "Wizard")],
    startingTrophies := some 4900, crowns := some 1, clan := none }

/-- A battle that ends in a crown tie. -/
def tieBattle : Battle :=
  { team := [tiePlayer], opponent := [tieOpponent] }

/-- The record `parse_battle` produces for `tieBattle`. -/
def tieRecord : BattleRecord :=
  { player_tag := "#PLR", player_deck := ["Knight"],
    player_trophies := some 5000, player_crowns := 1,
    opponent_tag := "#OPP", opponent_clan := none, opponent_crowns := 1,
    opponent_trophies := some 4900, opponent_deck := ["Wizard"],
    result := 0 }

/-- C1 counterexample: on a crown tie the parsed record reports
`result = 0`, but its mirrored record reports `result = 1`, not 0 — the
flip on line 260 negates unconditionally. -/
theorem mirror_tie_result_cex :
    parse_battle tieBattle = some tieRecord ∧
    tieRecord.player_crowns = tieRecord.opponent_crowns ∧
    tieRecord.result = 0 ∧ (mirror tieRecord).result = 1 := by
  decide

/-- C1 (amended): for every parsed record, `result` is 1 iff the player
won more crowns (ties give 0), and the mirrored record's result is
ALWAYS the logical negation of the original — so on equal crowns the
original reports 0 while the mirror reports 1. -/
theorem mirror_result_always_negated (b : Battle) (r : BattleRecord)
    (h : parse_battle b = some r) :
    (r.result = 1 ↔ r.opponent_crowns < r.player_crowns) ∧
    (r.result = 0 ↔ ¬ r.opponent_crowns < r.player_crowns) ∧
    ((mirror r).result = 0 ↔ r.opponent_crowns < r.player_crowns) ∧
    (r.player_crowns = r.opponent_crowns →
      r.result = 0 ∧ (mirror r).result = 1) := by
  obtain ⟨player, opponent, ocards, odeck, pcards, deck, crowns, ocrowns,
    ptag, otag, oclan, -, -, -, -, -, -, -, -, -, -, -, hr⟩ :=
    parse_battle_some_inv h
  subst hr
  by_cases hlt : ocrowns < crowns <;> simp [mirror, hlt]
  omega

/-- Witness for the amended C1 theorem at the concrete tie battle. -/
theorem mirror_result_always_negated_witness :
    tieRecord.result = 0 ∧ (mirror tieRecord).result = 1 :=
  (mirror_result_always_negated tieBattle tieRecord (by decide)).2.2.2
    (by decide)

/-- Field-wise equality of two records everywhere except `opponent_clan`. -/
def eqExceptOpponentClan (a b : BattleRecord) : Prop :=
  a.player_tag = b.player_tag ∧ a.player_deck = b.player_deck ∧
  a.player_trophies = b.player_trophies ∧
  a.player_crowns = b.player_crowns ∧
  a.opponent_tag = b.opponent_tag ∧
  a.opponent_crowns = b.opponent_crowns ∧
  a.opponent_trophies = b.opponent_trophies ∧
  a.opponent_deck = b.opponent_deck ∧
  a.result = b.result

/-- C6: mirroring a parsed record twice restores every field except
`opponent_clan`; one mirroring step always erases `opponent_clan`; and
the crawl output contains each parsed row together with its mirror,
doubling the row count. -/
theorem mirror_involution (b : Battle) (r : BattleRecord)
    (h : parse_battle b = some r) :
    eqExceptOpponentClan (mirror (mirror r)) r ∧
    (mirror r).opponent_clan = none ∧
    ∀ rows : List BattleRecord,
      (mirror_rows rows).length = 2 * rows.length ∧
      (r ∈ rows → r ∈ mirror_rows rows ∧ mirror r ∈ mirror_rows rows) := by
  obtain ⟨player, opponent, ocards, odeck, pcards, deck, crowns, ocrowns,
    ptag, otag, oclan, -, -, -, -, -, -, -, -, -, -, -, hr⟩ :=
    parse_battle_some_inv h
  subst hr
  refine ⟨?_, rfl, ?_⟩
  · by_cases hlt : ocrowns < crowns <;>
      simp [eqExceptOpponentClan, mirror, hlt]
  · intro rows
    refine ⟨by simp [mirror_rows, Nat.two_mul], fun hmem => ?_⟩
    exact ⟨List.mem_append_left _ hmem,
      List.mem_append_right _ (List.mem_map_of_mem _ hmem)⟩

/-- Witness for the C6 theorem at the concrete tie battle. -/
theorem mirror_involution_witness :
    eqExceptOpponentClan (mirror (mirror tieRecord)) tieRecord ∧
    (mirror tieRecord).opponent_clan = none ∧
    (mirror_rows [tieRecord]).length = 2 * 1 :=
  ⟨(mirror_involution tieBattle tieRecord (by decide)).1,
   (mirror_involution tieBattle tieRecord (by decide)).2.1,
   ((mirror_involution tieBattle tieRecord (by decide)).2.2 [tieRecord]).1⟩

/-- Every character of a `stripHash` result differs from the marker. -/
theorem stripHash_no_hash (v : String) :
    ∀ c ∈ (stripHash v).data, c ≠ '#' := by
  intro c hc
  simp only [stripHash, List.mem_filter] at hc
  simpa using hc.2

/-- A successfully computed `opponent_clan` value never contains the
marker character. -/
theorem computeOpponentClan_no_hash
    {clan : Option (List (String × String))} {s : String}
    (h : computeOpponentClan clan = some (some s)) :
    ∀ c ∈ s.data, c ≠ '#' := by
  cases clan with
  | none => simp [computeOpponentClan] at h
  | some d =>
    by_cases hd : d.isEmpty = true
    · simp [computeOpponentClan, hd] at h
    · simp only [computeOpponentClan] at h
      rw [if_neg hd] at h
      cases hl : List.lookup "tag" d with
      | none => rw [hl] at h; simp at h
      | some v =>
        rw [hl] at h
        simp only [Option.some.injEq] at h
        subst h
        exact stripHash_no_hash v

/-- C7 counterexample: `parse_battle` exposes the player tag verbatim,
so a record's `player_tag` can begin with the marker character. -/
theorem player_tag_keeps_hash_cex :
    parse_battle tieBattle = some tieRecord ∧
    tieRecord.player_tag.data.head? = some '#' := by
  decide

/-- C7 (amended): `opponent_clan` values contain no marker character at
all and clan-member resolution drops the first character of each raw
tag, but `player_tag` and `opponent_tag` are copied verbatim from the
raw battle (so they keep any leading marker). -/
theorem tag_stripping_policy (b : Battle) (r : BattleRecord)
    (h : parse_battle b = some r) :
    (∀ s, r.opponent_clan = some s → ∀ c ∈ s.data, c ≠ '#') ∧
    (∀ player rest, b.team = player :: rest →
      player.tag = some r.player_tag) ∧
    (∀ opp rest, b.opponent = opp :: rest →
      opp.tag = some r.opponent_tag) ∧
    (∀ ms ts, ms.mapM Member.tag = some ts →
      get_clan_members (some ms) = ts.map (fun t => t.drop 1)) := by
  obtain ⟨player, opponent, ocards, odeck, pcards, deck, crowns, ocrowns,
    ptag, otag, oclan, hp, ho, -, -, -, -, -, -, hpt, hot, hocl, hr⟩ :=
    parse_battle_some_inv h
  subst hr
  refine ⟨?_, ?_, ?_, ?_⟩
  · intro s hs
    simp only at hs
    subst hs
    exact computeOpponentClan_no_hash hocl
  · intro player' rest hteam
    rw [hteam] at hp
    simp only [List.head?_cons, Option.some.injEq] at hp
    subst hp
    simpa using hpt
  · intro opp' rest hopp
    rw [hopp] at ho
    simp only [List.head?_cons, Option.some.injEq] at ho
    subst ho
    simpa using hot
  · intro ms ts hts
    simp only [get_clan_members, Option.some_bind, hts]

/-- Witness for the amended C7 theorem: the verbatim player tag and the
first-character slice of clan-member resolution, at concrete inputs. -/
theorem tag_stripping_policy_witness :
    tiePlayer.tag = some tieRecord.player_tag ∧
    get_clan_members (some [Member.mk (some "#ABC")]) = ["ABC"] := by
  refine ⟨(tag_stripping_policy tieBattle tieRecord (by decide)).2.1
    tiePlayer [] rfl, ?_⟩
  have h := (tag_stripping_policy tieBattle tieRecord (by decide)).2.2.2
    [Member.mk (some "#ABC")] ["#ABC"] (by decide)
  simpa using h

/-- C8: a battle with an empty `team` array, an empty `opponent` array,
or a first team/opponent entry without a card list parses to Failure
(`none`); the embedding is a total function, so no exception can reach
the caller. -/
theorem parse_missing_required_none (b : Battle)
    (h : b.team = [] ∨ b.opponent = [] ∨
      (∃ p rest, b.team = p :: rest ∧ p.cards = none) ∨
      (∃ p rest, b.opponent = p :: rest ∧ p.cards = none)) :
    parse_battle b = none := by
  cases hp : parse_battle b with
  | none => rfl
  | some r =>
    exfalso
    obtain ⟨player, opponent, ocards, odeck, pcards, deck, crowns, ocrowns,
      ptag, otag, oclan, hteam, hopp, hocar, -, hpcar, -, -, -, -, -, -, -⟩ :=
      parse_battle_some_inv hp
    rcases h with h | h | ⟨p, rest, hb, hc⟩ | ⟨p, rest, hb, hc⟩
    · rw [h] at hteam; simp at hteam
    · rw [h] at hopp; simp at hopp
    · rw [hb] at hteam
      simp only [List.head?_cons, Option.some.injEq] at hteam
      subst hteam
      rw [hc] at hpcar
      exact Option.noConfusion hpcar
    · rw [hb] at hopp
      simp only [List.head?_cons, Option.some.injEq] at hopp
      subst hopp
      rw [hc] at hocar
      exact Option.noConfusion hocar

/-- A battle object whose `team` array is missing (empty). -/
def noTeamBattle : Battle := { team := [], opponent := [tieOpponent] }

/-- Witness for C8 at a concrete battle without a `team` array. -/
theorem parse_missing_required_none_witness :
    parse_battle noTeamBattle = none :=
  parse_missing_required_none noTeamBattle (Or.inl rfl)

/-- An opponent entry whose clan object is the empty JSON object. -/
def emptyClanOpponent : Participant :=
  { tag := some "#OPP", cards := some [Card.mk (some "Giant")],
    startingTrophies := none, crowns := some 0, clan := some [] }

/-- A battle whose opponent carries the empty clan object. -/
def emptyClanBattle : Battle :=
  { team := [tiePlayer], opponent := [emptyClanOpponent] }

/-- An opponent entry whose clan object is non-empty but has no tag
field. -/
def noTagClanOpponent : Participant :=
  { tag := some "#OPP", cards := some [Card.mk (some "Giant")],
    startingTrophies := none, crowns := some 0,
    clan := some [("name", "SomeClan")] }

/-- A battle whose opponent's clan object lacks a tag field. -/
def noTagClanBattle : Battle :=
  { team := [tiePlayer], opponent := [noTagClanOpponent] }

/-- C9 counterexample: the empty clan object also lacks a tag field, yet
`parse_battle` succeeds (Python truthiness treats the empty dict like a
missing one) and reports `opponent_clan` absent — so a record with a
present clan object can still have `opponent_clan` absent. -/
theorem empty_clan_object_cex :
    emptyClanOpponent.clan = some [] ∧
    parse_battle emptyClanBattle ≠ none ∧
    (parse_battle emptyClanBattle).map BattleRecord.opponent_clan =
      some none := by
  decide

/-- C9 (amended): a NON-EMPTY clan object without a tag field fails the
whole parse, and a parsed record has `opponent_clan` absent exactly when
the opponent's clan object is missing or empty. -/
theorem clan_without_tag_policy (b : Battle) (p : Participant)
    (rest : List Participant) (hb : b.opponent = p :: rest) :
    (∀ d, p.clan = some d → d ≠ [] → List.lookup "tag" d = none →
      parse_battle b = none) ∧
    (∀ r, parse_battle b = some r →
      (r.opponent_clan = none ↔ (p.clan = none ∨ p.clan = some []))) := by
  constructor
  · intro d hd hne hlk
    cases hp : parse_battle b with
    | none => rfl
    | some r =>
      exfalso
      obtain ⟨player, opponent, ocards, odeck, pcards, deck, crowns,
        ocrowns, ptag, otag, oclan, -, ho, -, -, -, -, -, -, -, -, hocl, -⟩ :=
        parse_battle_some_inv hp
      rw [hb] at ho
      simp only [List.head?_cons, Option.some.injEq] at ho
      subst ho
      rw [hd] at hocl
      simp only [computeOpponentClan] at hocl
      rw [if_neg (by simpa using hne), hlk] at hocl
      exact Option.noConfusion hocl
  · intro r hp
    obtain ⟨player, opponent, ocards, odeck, pcards, deck, crowns,
      ocrowns, ptag, otag, oclan, -, ho, -, -, -, -, -, -, -, -, hocl, hr⟩ :=
      parse_battle_some_inv hp
    rw [hb] at ho
    simp only [List.head?_cons, Option.some.injEq] at ho
    subst ho
    subst hr
    simp only
    cases hc : p.clan with
    | none =>
      rw [hc] at hocl
      simp only [computeOpponentClan, Option.some.injEq] at hocl
      subst hocl
      simp
    | some d =>
      rw [hc] at hocl
      cases d with
      | nil =>
        simp only [computeOpponentClan, List.isEmpty_nil, if_true,
          Option.some.injEq] at hocl
        subst hocl
        simp
      | cons kv tl =>
        simp only [computeOpponentClan, List.isEmpty_cons,
          Bool.false_eq_true, if_false] at hocl
        cases hl : List.lookup "tag" (kv :: tl) with
        | none => rw [hl] at hocl; exact absurd hocl (by simp)
        | some v =>
          rw [hl] at hocl
          simp only [Option.some.injEq] at hocl
          subst hocl
          simp

/-- Witness for the amended C9 theorem: the concrete battle whose
opponent clan object lacks a tag field fails to parse. -/
theorem clan_without_tag_policy_witness :
    parse_battle noTagClanBattle = none :=
  (clan_without_tag_policy noTagClanBattle noTagClanOpponent [] rfl).1
    [("name", "SomeClan")] rfl (by decide) (by decide)

/-- The response sequence 429, 429, 200: rate-limited twice, then
success. -/
def seq429 : Nat → Attempt :=
  fun i => if i < 2 then Attempt.status 429 else Attempt.status 200

/-- C4: `safe_request` makes at most `MAX_RETRIES` GET calls; a status
other than 200 and 429 returns Failure after that single call; a 200
returns the response of the current call immediately; and the sequence
[429, 429, 200] under a retry bound of at least 3 succeeds on the third
call after exactly two 10-unit sleeps. -/
theorem safe_request_contract :
    (∀ responses i code fuel, responses i = Attempt.status code →
      code ≠ 200 → code ≠ 429 →
      safe_request responses i (fuel + 1) = (none, 1, [])) ∧
    (∀ responses i fuel, (safe_request responses i fuel).2.1 ≤ fuel) ∧
    (∀ responses i fuel, responses i = Attempt.status 200 →
      safe_request responses i (fuel + 1) = (some i, 1, [])) ∧
    (∀ R, 3 ≤ R → safe_request seq429 0 R = (some 2, 3, [10, 10])) := by
  refine ⟨?_, ?_, ?_, ?_⟩
  · intro responses i code fuel hres h200 h429
    simp [safe_request, hres, h200, h429]
  · intro responses i fuel
    induction fuel generalizing i with
    | zero => simp [safe_request]
    | succ n ih =>
      simp only [safe_request]
      cases hres : responses i with
      | status code =>
        by_cases h2 : code = 200
        · simp [h2]
        · by_cases h4 : code = 429
          · simp only [h2, if_false, h4, if_true]
            exact Nat.succ_le_succ (ih (i + 1))
          · simp [h2, h4]
      | transportError => exact Nat.succ_le_succ (ih (i + 1))
  · intro responses i fuel hres
    simp [safe_request, hres]
  · intro R hR
    obtain ⟨k, rfl⟩ := Nat.exists_eq_add_of_le hR
    rw [Nat.add_comm]
    show safe_request seq429 0 (k + 2 + 1) = (some 2, 3, [10, 10])
    rfl

/-- Witness for C4: the three conditional conclusions at concrete
inputs. -/
theorem safe_request_contract_witness :
    safe_request (fun _ => Attempt.status 404) 0 1 = (none, 1, []) ∧
    (safe_request seq429 0 5).2.1 ≤ 5 ∧
    safe_request (fun _ => Attempt.status 200) 7 1 = (some 7, 1, []) ∧
    safe_request seq429 0 3 = (some 2, 3, [10, 10]) :=
  ⟨safe_request_contract.1 _ 0 404 0 rfl (by decide) (by decide),
   safe_request_contract.2.1 seq429 0 5,
   safe_request_contract.2.2.1 _ 7 0 rfl,
   safe_request_contract.2.2.2 3 (by decide)⟩

/-- Every GET call raises a transport-level exception. -/
def allTransport : Nat → Attempt := fun _ => Attempt.transportError

/-- C5 counterexample: with retry bound 3 and transport errors
throughout, `safe_request` sleeps three times at the 5-unit interval —
one sleep after every failed call, including the last — not twice. -/
theorem transport_sleep_count_cex :
    safe_request allTransport 0 3 = (none, 3, [5, 5, 5]) ∧
    (safe_request allTransport 0 3).2.2.length ≠ 2 := by
  decide

/-- C5 (amended): with retry bound N and all calls failing at transport
level, `safe_request` makes exactly N GET calls, sleeps N times at the
5-unit interval (after every failed call, the last included), and
returns Failure; the embedding is total, so the transport error is never
propagated. -/
theorem transport_failure_exhausts_attempts (N i : Nat) :
    safe_request allTransport i N = (none, N, List.replicate N 5) := by
  induction N generalizing i with
  | zero => rfl
  | succ n ih =>
    simp [safe_request, allTransport, ih, List.replicate_succ]

/-- Membership in the visited set produced by the expansion loop: a tag
is there iff it was already visited or it is a processed clan whose
crawl returned at least one row. -/
theorem mem_expandLoop_visited (crawl : String → List BattleRecord)
    (clans : List String) :
    ∀ (df : List BattleRecord) (visited : List String) (c : String),
      c ∈ (expandLoop crawl clans df visited).2.1 ↔
        c ∈ visited ∨ (c ∈ clans ∧ crawl c ≠ []) := by
  induction clans with
  | nil => intro df visited c; simp [expandLoop]
  | cons x rest ih =>
    intro df visited c
    cases hcx : crawl x with
    | nil =>
      simp only [expandLoop, hcx, List.isEmpty_nil, if_true, ih,
        List.mem_cons]
      constructor
      · rintro (h | h)
        · exact Or.inl h
        · exact Or.inr ⟨Or.inr h.1, h.2⟩
      · rintro (h | ⟨(rfl | h1), h2⟩)
        · exact Or.inl h
        · exact absurd hcx h2
        · exact Or.inr ⟨h1, h2⟩
    | cons y ys =>
      simp only [expandLoop, hcx, List.isEmpty_cons, Bool.false_eq_true,
        if_false, ih, List.mem_insert_iff, List.mem_cons]
      constructor
      · rintro ((rfl | h) | h)
        · exact Or.inr ⟨Or.inl rfl, by simp [hcx]⟩
        · exact Or.inl h
        · exact Or.inr ⟨Or.inr h.1, h.2⟩
      · rintro (h | ⟨(rfl | h1), h2⟩)
        · exact Or.inl (Or.inr h)
        · exact Or.inl (Or.inl rfl)
        · exact Or.inr ⟨h1, h2⟩

/-- A crawler that returns one row with no opponent clan for every
clan tag. -/
def soloCrawl : String → List BattleRecord := fun _ => [tieRecord]

/-- C2 counterexample: a fresh run whose starting clan crawl yields one
row still ends with an empty persisted visited set — the starting clan
is crawled, non-empty, and never marked visited. -/
theorem starting_clan_not_visited_cex :
    soloCrawl "A" ≠ [] ∧
    (build_complete_dataset soloCrawl none "A" 3 []).2.1 = [] := by
  decide

/-- C2 (amended): a clan enters the visited set iff it was already
visited or it is one of the clans selected for expansion whose crawl
returned at least one row; the starting clan of a fresh run is marked
visited only if it is itself selected for expansion, never by its
initial crawl. -/
theorem visited_iff_nonempty_expansion
    (crawl : String → List BattleRecord) (df : List BattleRecord)
    (quota : Nat) (visited : List String) (c : String) :
    (c ∈ (discover_and_expand crawl df quota visited).2.1 ↔
      c ∈ visited ∨
        (c ∈ select_new_clans df visited quota ∧ crawl c ≠ [])) ∧
    (∀ tag, c ∈ (build_complete_dataset crawl none tag quota visited).2.1 ↔
      c ∈ visited ∨
        (c ∈ select_new_clans (crawl tag) visited quota ∧ crawl c ≠ [])) :=
  ⟨mem_expandLoop_visited crawl _ df visited c,
   fun tag => mem_expandLoop_visited crawl _ (crawl tag) visited c⟩

/-- Every write the expansion loop itself performs is a visited-set
checkpoint save. -/
theorem expandLoop_events_visited (crawl : String → List BattleRecord)
    (clans : List String) :
    ∀ (df : List BattleRecord) (visited : List String),
      ∀ e ∈ (expandLoop crawl clans df visited).2.2,
        ∃ v, e = Event.writeVisited v := by
  induction clans with
  | nil => intro df visited e he; simp [expandLoop] at he
  | cons x rest ih =>
    intro df visited e he
    cases hcx : crawl x with
    | nil =>
      rw [expandLoop] at he
      simp only [hcx, List.isEmpty_nil, if_true] at he
      exact ih df visited e he
    | cons y ys =>
      rw [expandLoop] at he
      simp only [hcx, List.isEmpty_cons, Bool.false_eq_true, if_false,
        List.mem_cons] at he
      rcases he with rfl | he
      · exact ⟨visited.insert x, rfl⟩
      · exact ih (df ++ crawl x) (visited.insert x) e (by rw [hcx]; exact he)

/-- A prior-run dataset row whose opponent belongs to clan B. -/
def recClanB : BattleRecord :=
  { player_tag := "P", player_deck := ["Knight"], player_trophies := none,
    player_crowns := 2, opponent_tag := "Q", opponent_clan := some "B",
    opponent_crowns := 0, opponent_trophies := none,
    opponent_deck := ["Wizard"], result := 1 }

/-- C3 counterexample: a resumed run that expands one clan writes the
visited checkpoint during the expansion loop, before the final save
step — the write trace has three writes, not only the two final
overwrites. -/
theorem midrun_checkpoint_write_cex :
    (build_complete_dataset soloCrawl (some [recClanB]) "A" 1 []).2.2 =
      [Event.writeVisited ["B"],
       Event.writeParquet [recClanB, tieRecord],
       Event.writeVisited ["B"]] ∧
    ((build_complete_dataset soloCrawl (some [recClanB]) "A" 1 []).2.2).length
      ≠ 2 := by
  decide

/-- C3 (amended): the dataset file is written exactly once, as the first
half of the final save step, and the run's write trace is a sequence of
incremental visited-checkpoint saves followed by the two final
overwrites (dataset, then visited checkpoint). -/
theorem write_trace_shape (crawl : String → List BattleRecord)
    (existing : Option (List BattleRecord)) (tag : String) (quota : Nat)
    (ckpt : List String) :
    ∃ pre,
      (build_complete_dataset crawl existing tag quota ckpt).2.2 =
        pre ++
          [Event.writeParquet
            (build_complete_dataset crawl existing tag quota ckpt).1,
           Event.writeVisited
            (build_complete_dataset crawl existing tag quota ckpt).2.1] ∧
      ∀ e ∈ pre, ∃ v, e = Event.writeVisited v := by
  cases existing with
  | some d =>
    exact ⟨(discover_and_expand crawl d quota ckpt).2.2, rfl,
      expandLoop_events_visited crawl _ d ckpt⟩
  | none =>
    exact ⟨(discover_and_expand crawl (crawl tag) quota ckpt).2.2, rfl,
      expandLoop_events_visited crawl _ (crawl tag) ckpt⟩

/-- The accumulator-based first-occurrence dedup agrees with the
declarative one on whatever the accumulator has not yet seen. -/
theorem uniqueFirstAux_eq_spec (l : List String) :
    ∀ seen, uniqueFirstAux l seen =
      spec_distinct (l.filter (fun y => !(seen.contains y))) := by
  induction l with
  | nil => intro seen; simp [uniqueFirstAux, spec_distinct]
  | cons x xs ih =>
    intro seen
    by_cases hx : seen.contains x = true
    · simp only [uniqueFirstAux, hx, if_true, List.filter_cons,
        Bool.not_true, Bool.false_eq_true]
      rw [if_neg (by simp)]
      exact ih seen
    · have hx' : seen.contains x = false := by
        cases h : seen.contains x
        · rfl
        · exact absurd h hx
      simp only [uniqueFirstAux, hx', Bool.false_eq_true, if_false,
        List.filter_cons, Bool.not_false, if_true]
      rw [ih (x :: seen), spec_distinct, List.filter_filter]
      congr 1
      refine congrArg spec_distinct (List.filter_congr ?_)
      intro a _
      simp [List.contains_cons, Bool.not_or, Bool.and_comm, bne,
        Bool.beq_eq_decide_eq]

/-- C10: the clans picked for expansion (lines 291-292) are exactly the
first `quota` distinct non-absent `opponent_clan` values, in order of
their first occurrence in the dataset, that are not already visited —
the selection is this deterministic function of the dataset and the
visited set. -/
theorem select_new_clans_spec (df : List BattleRecord)
    (visited : List String) (quota : Nat) :
    select_new_clans df visited quota = spec_select df visited quota := by
  unfold select_new_clans spec_select uniqueFirst
  rw [uniqueFirstAux_eq_spec]
  simp

end ClashPipeline
